import Mathlib

/-!
Shallow embedding of the VC fund forecasting core of this repository
(`src/services/fund-forecast-service.ts`, class `FundForecastService`,
with the data model of `src/shared/enhanced-types.ts`).

Conventions of the embedding:
* JavaScript numbers are modelled as exact rationals (`ℚ`); division by
  zero follows Lean's `x / 0 = 0` convention where the JS code would
  produce `Infinity`/`NaN` (each such place is noted at its definition).
* `Math.sin(quarter * 0.5)` and `Math.pow(base, exp)` are transcendental
  and not computable over `ℚ`; they are passed in as explicit function
  parameters (`vSin`, `appr`, `powf`).  Where a theorem needs a fact
  about them it assumes exactly what the JS functions guarantee
  (for `Math.sin`: values lie in `[-1, 1]`).
* `Date` fields (`Investment.date`, `exitDate`) carry no arithmetic in
  the embedded code and are omitted.
* `Math.round x` is `round x : ℤ` (both are `⌊x + 1/2⌋`), and a
  `for (let i = 0; i < n; i++)` loop with an integer bound `n` runs
  `n.toNat` times.
-/

namespace FundForecast

/-- Funding stages (`FundStage` string union of `shared/types.ts`). -/
inductive FundStage where
  | preSeed
  | seed
  | seriesA
  | seriesB
  | seriesC
  | seriesDPlus
  deriving DecidableEq, Repr

/-- The display string of a stage, as the TS string union spells it. -/
def FundStage.label : FundStage → String
  | .preSeed => "Pre-Seed"
  | .seed => "Seed"
  | .seriesA => "Series A"
  | .seriesB => "Series B"
  | .seriesC => "Series C"
  | .seriesDPlus => "Series D+"

/-- Company status (`status ∈ {active, exited, written-off}`). -/
inductive CompanyStatus where
  | active
  | exited
  | writtenOff
  deriving DecidableEq, Repr

/-- One stage's exit-outcome bucket probabilities
(`StageExitProbabilities` of `enhanced-types.ts`). -/
structure StageExitProbabilities where
  great : ℚ
  good : ℚ
  mediocre : ℚ
  failure : ℚ
  deriving DecidableEq, Repr

/-- `ExitProbabilityMatrix`: one row of bucket probabilities per stage. -/
def ExitProbabilityMatrix : Type := FundStage → StageExitProbabilities

/-- `GraduationMatrix`: per stage, outcome-keyed transition probabilities
(rows have heterogeneous keys in the TS type; modelled as key/probability
pairs).  No embedded operation reads it. -/
def GraduationMatrix : Type := FundStage → List (String × ℚ)

/-- `StageStrategy` of `enhanced-types.ts`. -/
structure StageStrategy where
  stage : FundStage
  allocationPercent : ℚ
  checkSize : ℚ
  targetCompanies : ℚ
  followOnPercent : ℚ
  targetOwnership : ℚ
  entryValuation : ℚ
  reserveRatio : ℚ

/-- `EnhancedFundInputs` of `enhanced-types.ts` (the fields the embedded
operations read; optional fields unused by the engine are omitted). -/
structure EnhancedFundInputs where
  fundName : String
  fundSize : ℚ
  vintage : ℤ
  managementFeeRate : ℚ
  carryRate : ℚ
  gpCommitment : ℚ
  hurdleRate : ℚ
  investmentPeriodYears : ℕ
  fundLifeYears : ℕ
  stageStrategies : List StageStrategy
  graduationMatrix : GraduationMatrix
  exitProbabilityMatrix : ExitProbabilityMatrix

/-- `WaterfallSummary` of `shared/types.ts`. -/
structure WaterfallSummary where
  totalDistributions : ℚ
  lpDistributions : ℚ
  gpDistributions : ℚ
  preferredReturn : ℚ
  carryPaid : ℚ
  catchUpPaid : ℚ
  lpShare : ℚ
  gpShare : ℚ
  effectiveCarry : ℚ
  deriving DecidableEq, Repr

/-- `FundForecastService.calculateWaterfall` (fund-forecast-service.ts
lines 168-210 of that file).  The sequential `+=`/`-=` mutations are
written as `let` bindings in program order. -/
def calculateWaterfall (totalDistributions totalInvested : ℚ)
    (inputs : EnhancedFundInputs) : WaterfallSummary :=
  let totalCapitalCalled := totalInvested / (1 - inputs.gpCommitment)
  let lpCapitalCalled := totalCapitalCalled * (1 - inputs.gpCommitment)
  -- Return of capital
  let capitalReturn := min totalDistributions lpCapitalCalled
  let remaining1 := totalDistributions - capitalReturn
  -- Preferred return ("Simplified" per the source comment)
  let preferredReturn :=
    lpCapitalCalled * inputs.hurdleRate * ((inputs.fundLifeYears : ℚ) * (7 / 10))
  let prefReturn := min remaining1 preferredReturn
  let remaining2 := remaining1 - prefReturn
  -- Carried interest on remaining
  let carriedInterest := if remaining2 > 0 then remaining2 * inputs.carryRate else 0
  let gpDistributions := carriedInterest
  let lpDistributions :=
    capitalReturn + prefReturn +
      (if remaining2 > 0 then remaining2 - carriedInterest else 0)
  { totalDistributions := totalDistributions
    lpDistributions := lpDistributions
    gpDistributions := gpDistributions
    preferredReturn := prefReturn
    carryPaid := carriedInterest
    catchUpPaid := 0  -- "Simplified" in the source: no catch-up tier
    lpShare := if totalDistributions > 0 then lpDistributions / totalDistributions else 0
    gpShare := if totalDistributions > 0 then gpDistributions / totalDistributions else 0
    effectiveCarry :=
      if totalDistributions > totalCapitalCalled then
        carriedInterest / (totalDistributions - totalCapitalCalled)
      else 0 }

/-- Per-company metrics seeded by the cohort generator
(`metrics: { revenue: 0, growth: 0, runway: 18 }`). -/
structure CompanyMetrics where
  revenue : ℚ
  growth : ℚ
  runway : ℚ
  deriving DecidableEq, Repr

/-- `Investment` of `shared/types.ts` (the fields the engine writes; the
`date` field carries no arithmetic and is omitted). -/
structure Investment where
  round : FundStage
  amount : ℚ
  ownership : ℚ
  valuation : ℚ
  deriving DecidableEq, Repr

/-- `PortfolioCompany` of `shared/types.ts` (the fields the engine
writes; optional `exitValue`/`exitDate` are never set by the embedded
code and are omitted). -/
structure PortfolioCompany where
  id : String
  name : String
  currentStage : FundStage
  investments : List Investment
  currentValuation : ℚ
  status : CompanyStatus
  metrics : CompanyMetrics
  deriving DecidableEq, Repr

/-- The one company record `generatePortfolio` pushes for strategy `s`,
running company counter `cid`, in-stage index `i` (fund-forecast-service
`generatePortfolio`, the loop body). -/
def companyFor (s : StageStrategy) (cid i : ℕ) : PortfolioCompany :=
  { id := "company-" ++ toString cid
    name := s.stage.label ++ " Company " ++ toString (i + 1)
    currentStage := s.stage
    investments := [{ round := s.stage
                      amount := s.checkSize
                      ownership := s.targetOwnership
                      valuation := s.entryValuation }]
    currentValuation := s.entryValuation * (1 + s.targetOwnership)
    status := CompanyStatus.active
    metrics := { revenue := 0, growth := 0, runway := 18 } }

/-- `Math.round(strategy.targetCompanies)` as the number of loop
iterations (`for (i = 0; i < companiesInStage; i++)`): a negative
rounded value runs the loop zero times, hence `Int.toNat`. -/
def companiesInStage (s : StageStrategy) : ℕ := (round s.targetCompanies).toNat

/-- The block of companies one strategy contributes, with the running
company-id counter starting at `startId`. -/
def companiesForStrategy (s : StageStrategy) (startId : ℕ) : List PortfolioCompany :=
  (List.range (companiesInStage s)).map (fun i => companyFor s (startId + i) i)

/-- `generatePortfolio`'s `forEach` over the strategies, threading the
`companyId` counter. -/
def generatePortfolioGo : List StageStrategy → ℕ → List PortfolioCompany
  | [], _ => []
  | s :: rest, companyId =>
      companiesForStrategy s companyId ++
        generatePortfolioGo rest (companyId + companiesInStage s)

/-- `FundForecastService.generatePortfolio` (`companyId` starts at 1). -/
def generatePortfolio (inputs : EnhancedFundInputs) : List PortfolioCompany :=
  generatePortfolioGo inputs.stageStrategies 1

/-- The per-strategy blocks of the generated portfolio (used to state
what each strategy contributes). -/
def portfolioBlocks : List StageStrategy → ℕ → List (List PortfolioCompany)
  | [], _ => []
  | s :: rest, companyId =>
      companiesForStrategy s companyId ::
        portfolioBlocks rest (companyId + companiesInStage s)

/-- `FundForecastService.validateInputs`: the sequential `throw`s become
nested `if`s returning `Except.error`. -/
def validateInputs (inputs : EnhancedFundInputs) : Except String Unit :=
  if inputs.fundSize ≤ 0 then
    Except.error "Fund size must be greater than 0"
  else if inputs.managementFeeRate < 0 ∨ inputs.managementFeeRate > 1 / 10 then
    Except.error "Management fee rate must be between 0% and 10%"
  else if inputs.carryRate < 0 ∨ inputs.carryRate > 1 / 2 then
    Except.error "Carry rate must be between 0% and 50%"
  else
    let totalAllocation :=
      inputs.stageStrategies.foldl (fun sum s => sum + s.allocationPercent) 0
    if |totalAllocation - 1| > 1 / 1000 then
      Except.error "Stage allocations must sum to 100%"
    else
      Except.ok ()

/-- `TimelineMetrics` of `shared/types.ts`: one record per simulated
quarter. -/
structure TimelineMetrics where
  quarter : ℕ
  quarterLabel : String
  capitalDeployed : ℚ
  capitalCalled : ℚ
  distributions : ℚ
  netCashFlow : ℚ
  cumulativeCashFlow : ℚ
  totalInvested : ℚ
  totalDistributed : ℚ
  portfolioValue : ℚ
  nav : ℚ
  dpi : ℚ
  rvpi : ℚ
  tvpi : ℚ
  grossMOIC : ℚ
  netMOIC : ℚ
  grossIRR : ℚ
  netIRR : ℚ
  managementFees : ℚ
  carriedInterest : ℚ
  deriving DecidableEq, Repr

/-- `FundForecastService.calculateQuarterlyDeployment`.  `Math.sin(quarter
* 0.5)` is supplied as `vSin quarter`; the `portfolio` parameter is unused
in the source too.  When `investmentQuarters = 0` the guard returns 0
before the division, so `ℚ`'s `x / 0 = 0` is never observable. -/
def calculateQuarterlyDeployment (vSin : ℕ → ℚ) (quarter investmentQuarters : ℕ)
    (totalCapital : ℚ) (portfolio : List PortfolioCompany) : ℚ :=
  if investmentQuarters ≤ quarter then 0
  else
    -- Simple linear deployment
    let baseDeployment := totalCapital * (6 / 10) / (investmentQuarters : ℚ)
    -- Add some variance
    let variance := vSin quarter * (2 / 10)
    baseDeployment * (1 + variance)

/-- `FundForecastService.calculateQuarterlyDistributions` ("Simplified
distribution calculation"): zero before quarter 12, afterwards
`avgInvestment * avgMultiple * exitRate * portfolio.length`, independent
of the exit-probability matrix.  (For an empty portfolio the JS code
divides by zero; here `x / 0 = 0` makes the product 0.) -/
def calculateQuarterlyDistributions (quarter : ℕ)
    (portfolio : List PortfolioCompany) (inputs : EnhancedFundInputs) : ℚ :=
  if quarter < 12 then 0  -- No distributions in first 3 years
  else
    let exitRate : ℚ := 5 / 100  -- 5% of portfolio exits per quarter after year 3
    let avgMultiple : ℚ := 3
    let avgInvestment := inputs.fundSize * 1000000 / (portfolio.length : ℚ)
    avgInvestment * avgMultiple * exitRate * (portfolio.length : ℚ)

/-- `FundForecastService.calculateQuarterlyFees`: during the investment
period the code returns `feeRate / 4` (a bare rate, not applied to any
capital basis, despite its own comment); afterwards
`investedCapital * feeRate / 4`. -/
def calculateQuarterlyFees (investedCapital feeRate : ℚ)
    (quarter investmentQuarters : ℕ) : ℚ :=
  if quarter < investmentQuarters then feeRate / 4
  else investedCapital * feeRate / 4

/-- `FundForecastService.calculateNAV`: left fold over the portfolio,
adding `currentValuation * Math.pow(1.15, quarter / 4)` for each active
company; the transcendental appreciation factor is supplied as
`appr quarter`. -/
def calculateNAV (appr : ℕ → ℚ) (portfolio : List PortfolioCompany)
    (quarter : ℕ) : ℚ :=
  portfolio.foldl
    (fun sum company =>
      if company.status = CompanyStatus.active then
        sum + company.currentValuation * appr quarter
      else sum)
    0

/-- The record `calculateTimeline` pushes for one quarter (its
`timeline.push({...})` literal).  `cumInv`, `cumDist`, `cumFees`,
`cumCarry` are the cumulative variables after this quarter's updates;
the local `capitalCalled = cumulativeInvested + cumulativeFees` guards
the ratio fields, while the record's `capitalCalled` field is the
per-quarter `deployment + fees`. -/
def mkRecord (inputs : EnhancedFundInputs) (quarter : ℕ)
    (deployment distributions fees cumInv cumDist cumFees cumCarry nav : ℚ) :
    TimelineMetrics :=
  let capitalCalled := cumInv + cumFees
  { quarter := quarter
    quarterLabel :=
      "Q" ++ toString (quarter % 4 + 1) ++ " " ++
        toString (((quarter / 4 : ℕ) : ℤ) + inputs.vintage)
    capitalDeployed := deployment
    capitalCalled := deployment + fees
    distributions := distributions
    netCashFlow := distributions - (deployment + fees)
    cumulativeCashFlow := cumDist - capitalCalled
    totalInvested := cumInv
    totalDistributed := cumDist
    portfolioValue := nav
    nav := nav
    dpi := if capitalCalled > 0 then cumDist / capitalCalled else 0
    rvpi := if capitalCalled > 0 then nav / capitalCalled else 0
    tvpi := if capitalCalled > 0 then (cumDist + nav) / capitalCalled else 0
    grossMOIC := if cumInv > 0 then (cumDist + nav) / cumInv else 0
    netMOIC := if capitalCalled > 0 then (cumDist + nav - cumCarry) / capitalCalled else 0
    grossIRR := 0  -- Calculated separately
    netIRR := 0  -- Calculated separately
    managementFees := fees
    carriedInterest := 0 }

/-- The quarterly loop of `FundForecastService.calculateTimeline`:
`fuel` counts the quarters still to run, `quarter` the current index,
and the four rationals are the cumulative variables entering the
quarter. -/
def timelineFrom (vSin appr : ℕ → ℚ) (portfolio : List PortfolioCompany)
    (inputs : EnhancedFundInputs) :
    ℕ → ℕ → ℚ → ℚ → ℚ → ℚ → List TimelineMetrics
  | _, 0, _, _, _, _ => []
  | quarter, fuel + 1, cumInv, cumDist, cumFees, cumCarry =>
    let investmentQuarters := inputs.investmentPeriodYears * 4
    let deployment := calculateQuarterlyDeployment vSin quarter investmentQuarters
      (inputs.fundSize * 1000000) portfolio
    let cumInv' := cumInv + deployment
    let distributions := calculateQuarterlyDistributions quarter portfolio inputs
    let cumDist' := cumDist + distributions
    let fees := calculateQuarterlyFees cumInv' inputs.managementFeeRate quarter
      investmentQuarters
    let cumFees' := cumFees + fees
    let nav := calculateNAV appr portfolio quarter
    mkRecord inputs quarter deployment distributions fees cumInv' cumDist' cumFees'
        cumCarry nav ::
      timelineFrom vSin appr portfolio inputs (quarter + 1) fuel cumInv' cumDist'
        cumFees' cumCarry

/-- The timeline before `calculateIRRs` back-fills the IRR fields. -/
def timelineRaw (vSin appr : ℕ → ℚ) (portfolio : List PortfolioCompany)
    (inputs : EnhancedFundInputs) : List TimelineMetrics :=
  timelineFrom vSin appr portfolio inputs 0 (inputs.fundLifeYears * 4) 0 0 0 0

/-- The single gross IRR `FundForecastService.calculateIRRs` computes
from the final record of the full series:
`pow(totalOut / totalIn, 1 / years) - 1`, with `Math.pow` supplied as
`powf`.  (On an empty timeline the JS code would fault reading
`timeline[length - 1]`; the `none` branch is unreachable from
`calculateTimeline` whenever the fund life is positive.) -/
def irrOfTimeline (powf : ℚ → ℚ → ℚ) (timeline : List TimelineMetrics) : ℚ :=
  match timeline.getLast? with
  | none => 0
  | some last =>
      let totalIn := last.totalInvested
      let totalOut := last.totalDistributed + last.portfolioValue
      let years := (timeline.length : ℚ) / 4
      let grossMOIC := totalOut / totalIn
      powf grossMOIC (1 / years) - 1

/-- `FundForecastService.calculateIRRs`: the in-place
`timeline.forEach` mutation written as a map, back-filling the one
computed gross IRR and `netIRR = grossIRR * 0.8` into every record. -/
def calculateIRRs (powf : ℚ → ℚ → ℚ) (timeline : List TimelineMetrics) :
    List TimelineMetrics :=
  let grossIRR := irrOfTimeline powf timeline
  timeline.map (fun t => { t with grossIRR := grossIRR, netIRR := grossIRR * (4 / 5) })

/-- `FundForecastService.calculateTimeline`: run the quarterly loop for
`fundLifeYears * 4` quarters from zeroed cumulative state, then back-fill
IRRs. -/
def calculateTimeline (vSin appr : ℕ → ℚ) (powf : ℚ → ℚ → ℚ)
    (portfolio : List PortfolioCompany) (inputs : EnhancedFundInputs) :
    List TimelineMetrics :=
  calculateIRRs powf (timelineRaw vSin appr portfolio inputs)

end FundForecast

namespace FundForecast

/-- C1: for every `totalDistributions ≥ 0` and `gpCommitment < 1`, the
waterfall conserves mass: `lpDistributions + gpDistributions` equals
`totalDistributions` exactly (in the exact-rational embedding). -/
theorem calculateWaterfall_mass_conservation
    (totalDistributions totalInvested : ℚ) (inputs : EnhancedFundInputs)
    (hd : 0 ≤ totalDistributions) (hgp : inputs.gpCommitment < 1) :
    (calculateWaterfall totalDistributions totalInvested inputs).lpDistributions +
      (calculateWaterfall totalDistributions totalInvested inputs).gpDistributions =
      totalDistributions := by
  simp only [calculateWaterfall]
  split_ifs with h
  · ring
  · -- the remainder after the first two tiers is nonnegative, so here it is 0
    have hle :
        min (totalDistributions - min totalDistributions
              (totalInvested / (1 - inputs.gpCommitment) * (1 - inputs.gpCommitment)))
            (totalInvested / (1 - inputs.gpCommitment) * (1 - inputs.gpCommitment) *
              inputs.hurdleRate * ((inputs.fundLifeYears : ℚ) * (7 / 10))) ≤
          totalDistributions - min totalDistributions
            (totalInvested / (1 - inputs.gpCommitment) * (1 - inputs.gpCommitment)) :=
      min_le_left _ _
    push_neg at h
    linarith

/-- Concrete instance for C1: a $200 distribution on $100 invested with a
2% GP commitment splits into LP and GP parts summing to exactly 200. -/
def c1Inputs : EnhancedFundInputs :=
  { fundName := "Test Fund"
    fundSize := 50
    vintage := 2020
    managementFeeRate := 1 / 50
    carryRate := 1 / 5
    gpCommitment := 1 / 50
    hurdleRate := 2 / 25
    investmentPeriodYears := 5
    fundLifeYears := 10
    stageStrategies := []
    graduationMatrix := fun _ => []
    exitProbabilityMatrix := fun _ => ⟨0, 0, 0, 1⟩ }

/-- Witness for C1 at a concrete input. -/
theorem calculateWaterfall_mass_conservation_witness :
    (0 : ℚ) ≤ 200 ∧ c1Inputs.gpCommitment < 1 ∧
      (calculateWaterfall 200 100 c1Inputs).lpDistributions +
        (calculateWaterfall 200 100 c1Inputs).gpDistributions = 200 :=
  ⟨by norm_num, by norm_num [c1Inputs],
    calculateWaterfall_mass_conservation 200 100 c1Inputs (by norm_num)
      (by norm_num [c1Inputs])⟩

/-- Inputs for the C6 counterexample: no GP commitment, 8% hurdle,
20% carry, 10-year life; $200 distributed on $100 invested leaves
$44 after return of capital ($100) and preferred return ($56). -/
def c6Inputs : EnhancedFundInputs :=
  { fundName := "Catch-Up Fund"
    fundSize := 50
    vintage := 2020
    managementFeeRate := 1 / 50
    carryRate := 1 / 5
    gpCommitment := 0
    hurdleRate := 2 / 25
    investmentPeriodYears := 5
    fundLifeYears := 10
    stageStrategies := []
    graduationMatrix := fun _ => []
    exitProbabilityMatrix := fun _ => ⟨0, 0, 0, 1⟩ }

/-- Counterexample to C6: distributions remain after the first two tiers
(the preferred return paid is 56 < 200 - 100), yet `catchUpPaid` is 0 and
the GP take (44/5) is not `carryRate` of the profit above capital return
(which would be 20): the code pays no catch-up tier. -/
theorem calculateWaterfall_no_catchup_cex :
    (calculateWaterfall 200 100 c6Inputs).preferredReturn = 56 ∧
      (calculateWaterfall 200 100 c6Inputs).gpDistributions = 44 / 5 ∧
      (calculateWaterfall 200 100 c6Inputs).catchUpPaid = 0 ∧
      (44 : ℚ) / 5 ≠ c6Inputs.carryRate * (200 - 100) := by
  refine ⟨?_, ?_, rfl, by norm_num [c6Inputs]⟩ <;>
    norm_num [calculateWaterfall, c6Inputs]

/-- C6 (amended): the waterfall implements no catch-up tier: for every
input, `catchUpPaid = 0`, the GP's distributions are exactly the carried
interest, and that carried interest is `carryRate` of whatever remains
after the return-of-capital and preferred-return tiers (0 when nothing
remains). -/
theorem calculateWaterfall_no_catchup (total inv : ℚ)
    (inputs : EnhancedFundInputs) :
    (calculateWaterfall total inv inputs).catchUpPaid = 0 ∧
      (calculateWaterfall total inv inputs).gpDistributions =
        (calculateWaterfall total inv inputs).carryPaid ∧
      (calculateWaterfall total inv inputs).carryPaid =
        (let lpcc := inv / (1 - inputs.gpCommitment) * (1 - inputs.gpCommitment)
         let rem2 := total - min total lpcc -
           min (total - min total lpcc)
             (lpcc * inputs.hurdleRate * ((inputs.fundLifeYears : ℚ) * (7 / 10)))
         if rem2 > 0 then rem2 * inputs.carryRate else 0) :=
  ⟨rfl, rfl, rfl⟩

/-- C2 (amended): `validateInputs` accepts exactly the inputs with
positive fund size, management fee in [0, 10%], carry in [0, 50%] and
stage allocations summing to 1 ± 1e-3.  (It checks nothing else: not the
exit-probability rows, not the investment period against the fund
life.) -/
theorem validateInputs_ok_iff (inputs : EnhancedFundInputs) :
    validateInputs inputs = Except.ok () ↔
      (0 < inputs.fundSize ∧
        0 ≤ inputs.managementFeeRate ∧ inputs.managementFeeRate ≤ 1 / 10 ∧
        0 ≤ inputs.carryRate ∧ inputs.carryRate ≤ 1 / 2 ∧
        |inputs.stageStrategies.foldl (fun sum s => sum + s.allocationPercent) 0 - 1|
          ≤ 1 / 1000) := by
  simp only [validateInputs]
  split_ifs with h1 h2 h3 h4
  · simp only [reduceCtorEq, false_iff]
    rintro ⟨a, -⟩
    linarith
  · simp only [reduceCtorEq, false_iff]
    rintro ⟨-, b1, b2, -⟩
    rcases h2 with h | h <;> linarith
  · simp only [reduceCtorEq, false_iff]
    rintro ⟨-, -, -, b1, b2, -⟩
    rcases h3 with h | h <;> linarith
  · simp only [reduceCtorEq, false_iff]
    rintro ⟨-, -, -, -, -, b⟩
    linarith
  · simp only [true_iff]
    push_neg at h1 h2 h3 h4
    exact ⟨h1, h2.1, h2.2, h3.1, h3.2, h4⟩

/-- Inputs for the C2 counterexample: allocations sum to 1 and fees are
in range, but the investment period (10 years) exceeds the fund life
(5 years) and every exit-probability row sums to 0 (not 1). -/
def c2Inputs : EnhancedFundInputs :=
  { fundName := "Bad Timeline Fund"
    fundSize := 50
    vintage := 2020
    managementFeeRate := 1 / 50
    carryRate := 1 / 5
    gpCommitment := 1 / 50
    hurdleRate := 2 / 25
    investmentPeriodYears := 10
    fundLifeYears := 5
    stageStrategies :=
      [{ stage := FundStage.seed
         allocationPercent := 1
         checkSize := 1000000
         targetCompanies := 10
         followOnPercent := 1 / 2
         targetOwnership := 1 / 10
         entryValuation := 10000000
         reserveRatio := 1 / 2 }]
    graduationMatrix := fun _ => []
    exitProbabilityMatrix := fun _ => ⟨0, 0, 0, 0⟩ }

/-- Counterexample to C2: `validateInputs` accepts an input whose
investment period exceeds the fund life and whose exit-probability rows
sum to 0, so `runForecast` raises no configuration error before
simulation for either violated condition. -/
theorem validateInputs_missing_checks_cex :
    validateInputs c2Inputs = Except.ok () ∧
      c2Inputs.fundLifeYears < c2Inputs.investmentPeriodYears ∧
      (c2Inputs.exitProbabilityMatrix FundStage.seed).great +
          (c2Inputs.exitProbabilityMatrix FundStage.seed).good +
          (c2Inputs.exitProbabilityMatrix FundStage.seed).mediocre +
          (c2Inputs.exitProbabilityMatrix FundStage.seed).failure = 0 := by
  refine ⟨?_, by norm_num [c2Inputs], by norm_num [c2Inputs]⟩
  norm_num [validateInputs, c2Inputs]

/-- `generatePortfolioGo` is the concatenation of the per-strategy
blocks. -/
theorem generatePortfolioGo_eq_flatten (l : List StageStrategy) (n : ℕ) :
    generatePortfolioGo l n = (portfolioBlocks l n).flatten := by
  induction l generalizing n with
  | nil => rfl
  | cons s rest ih =>
      simp [generatePortfolioGo, portfolioBlocks, ih]

/-- C5: the generated portfolio decomposes into one block per
`StageStrategy` (in order): the block for strategy `s` has exactly
`round s.targetCompanies` companies, each active, each holding exactly
one initial investment at the strategy's check size, target ownership
and entry valuation, with `currentValuation =
entryValuation * (1 + targetOwnership)`. -/
theorem generatePortfolio_per_strategy (inputs : EnhancedFundInputs) :
    ∃ blocks : List (List PortfolioCompany),
      generatePortfolio inputs = blocks.flatten ∧
        List.Forall₂
          (fun (b : List PortfolioCompany) (s : StageStrategy) =>
            b.length = (round s.targetCompanies).toNat ∧
              ∀ c ∈ b,
                c.currentStage = s.stage ∧
                c.status = CompanyStatus.active ∧
                c.currentValuation = s.entryValuation * (1 + s.targetOwnership) ∧
                c.investments =
                  [{ round := s.stage
                     amount := s.checkSize
                     ownership := s.targetOwnership
                     valuation := s.entryValuation }])
          blocks inputs.stageStrategies := by
  refine ⟨portfolioBlocks inputs.stageStrategies 1,
    generatePortfolioGo_eq_flatten _ _, ?_⟩
  generalize 1 = n
  induction inputs.stageStrategies generalizing n with
  | nil => exact List.Forall₂.nil
  | cons s rest ih =>
      refine List.Forall₂.cons ⟨?_, ?_⟩ (ih _)
      · simp [companiesForStrategy, companiesInStage]
      · intro c hc
        simp only [companiesForStrategy, List.mem_map, List.mem_range] at hc
        obtain ⟨i, -, rfl⟩ := hc
        exact ⟨rfl, rfl, rfl, rfl⟩

/-- Inputs for the C9 counterexample: a single fully-allocated stage
whose `targetCompanies = 0.3` rounds to zero. -/
def c9Inputs : EnhancedFundInputs :=
  { fundName := "Under-Specified Fund"
    fundSize := 50
    vintage := 2020
    managementFeeRate := 1 / 50
    carryRate := 1 / 5
    gpCommitment := 1 / 50
    hurdleRate := 2 / 25
    investmentPeriodYears := 5
    fundLifeYears := 10
    stageStrategies :=
      [{ stage := FundStage.seed
         allocationPercent := 1
         checkSize := 1000000
         targetCompanies := 3 / 10
         followOnPercent := 1 / 2
         targetOwnership := 1 / 10
         entryValuation := 10000000
         reserveRatio := 1 / 2 }]
    graduationMatrix := fun _ => []
    exitProbabilityMatrix := fun _ => ⟨0, 0, 0, 1⟩ }

/-- Counterexample to C9: a stage with `allocationPercent = 1 > 0` whose
`targetCompanies` rounds to zero raises no error — `generatePortfolio`
is a total function and silently returns a portfolio omitting the stage
(here, the empty portfolio). -/
theorem generatePortfolio_silent_omission_cex :
    generatePortfolio c9Inputs = [] ∧
      (c9Inputs.stageStrategies.map (fun s => s.allocationPercent)) = [1] ∧
      (c9Inputs.stageStrategies.map (fun s => round s.targetCompanies)) = [0] := by
  have hr : round ((3 : ℚ) / 10) = 0 := by norm_num [round_eq]
  refine ⟨?_, rfl, ?_⟩
  · simp [generatePortfolio, generatePortfolioGo, companiesForStrategy,
      companiesInStage, c9Inputs, hr]
  · simp [c9Inputs, hr]

/-- C3: evaluating `calculateQuarterlyFees` during the investment period
(quarter 0 of 20) at a 2% fee rate with $50M of capital: the code
returns the bare quarterly rate `0.02 / 4 = 0.005`, not the fee on the
committed-capital basis (`50000000 * 0.02 / 4 = 250000`) that both the
spec and the code's own comment describe. -/
theorem calculateQuarterlyFees_flat_rate_eval :
    calculateQuarterlyFees 50000000 (1 / 50) 0 20 = 1 / 200 ∧
      (1 : ℚ) / 200 ≠ 50000000 * (1 / 50) / 4 := by
  constructor
  · norm_num [calculateQuarterlyFees]
  · norm_num

/-- C8: the timeline returned by `calculateTimeline` carries one single
gross IRR — computed from the final record of the full series — in every
record, and every record's net IRR is that same value times 0.8. -/
theorem calculateTimeline_irr_backfilled (vSin appr : ℕ → ℚ) (powf : ℚ → ℚ → ℚ)
    (portfolio : List PortfolioCompany) (inputs : EnhancedFundInputs) :
    (calculateTimeline vSin appr powf portfolio inputs).map
        (fun r => r.grossIRR) =
      List.replicate (timelineRaw vSin appr portfolio inputs).length
        (irrOfTimeline powf (timelineRaw vSin appr portfolio inputs)) ∧
      (calculateTimeline vSin appr powf portfolio inputs).map
          (fun r => r.netIRR) =
        List.replicate (timelineRaw vSin appr portfolio inputs).length
          (irrOfTimeline powf (timelineRaw vSin appr portfolio inputs) * (4 / 5)) := by
  constructor <;>
    simp [calculateTimeline, calculateIRRs, List.map_map, Function.comp_def,
      List.map_const']

/-- During the investment period `calculateQuarterlyDeployment` pays a
nonnegative amount whenever the capital pool is nonnegative and the
sine-variance values lie in [-1, 1] (as `Math.sin`'s do); afterwards it
pays exactly 0. -/
theorem calculateQuarterlyDeployment_nonneg (vSin : ℕ → ℚ)
    (hsin : ∀ q, |vSin q| ≤ 1) (quarter investmentQuarters : ℕ)
    (totalCapital : ℚ) (htc : 0 ≤ totalCapital)
    (portfolio : List PortfolioCompany) :
    0 ≤ calculateQuarterlyDeployment vSin quarter investmentQuarters totalCapital
        portfolio := by
  unfold calculateQuarterlyDeployment
  rcases le_or_lt investmentQuarters quarter with h | h
  · rw [if_pos h]
  · rw [if_neg (not_le.mpr h)]
    have hq : (0 : ℚ) < (investmentQuarters : ℚ) := by
      exact_mod_cast Nat.pos_of_ne_zero (by omega)
    have hbase : 0 ≤ totalCapital * (6 / 10) / (investmentQuarters : ℚ) :=
      div_nonneg (mul_nonneg htc (by norm_num)) hq.le
    have hvar : -1 ≤ vSin quarter := (abs_le.mp (hsin quarter)).1
    have hfac : 0 ≤ 1 + vSin quarter * (2 / 10) := by linarith
    exact mul_nonneg hbase hfac

/-- Quarterly distributions are nonnegative whenever the fund size is. -/
theorem calculateQuarterlyDistributions_nonneg (quarter : ℕ)
    (portfolio : List PortfolioCompany) (inputs : EnhancedFundInputs)
    (hf : 0 ≤ inputs.fundSize) :
    0 ≤ calculateQuarterlyDistributions quarter portfolio inputs := by
  unfold calculateQuarterlyDistributions
  rcases lt_or_le quarter 12 with h | h
  · rw [if_pos h]
  · rw [if_neg (not_lt.mpr h)]
    have havg : 0 ≤ inputs.fundSize * 1000000 / (portfolio.length : ℚ) :=
      div_nonneg (mul_nonneg hf (by norm_num)) (Nat.cast_nonneg _)
    exact mul_nonneg (mul_nonneg (mul_nonneg havg (by norm_num)) (by norm_num))
      (Nat.cast_nonneg _)

/-- The first record the quarterly loop emits starts from cumulative
state at least the state it was entered with. -/
theorem timelineFrom_head_ge (vSin appr : ℕ → ℚ)
    (portfolio : List PortfolioCompany) (inputs : EnhancedFundInputs)
    (hsin : ∀ q, |vSin q| ≤ 1) (hf : 0 ≤ inputs.fundSize)
    (fuel quarter : ℕ) (cumInv cumDist cumFees cumCarry : ℚ)
    (r : TimelineMetrics)
    (hr : (timelineFrom vSin appr portfolio inputs quarter fuel cumInv cumDist
        cumFees cumCarry).head? = some r) :
    cumInv ≤ r.totalInvested ∧ cumDist ≤ r.totalDistributed := by
  cases fuel with
  | zero => simp [timelineFrom] at hr
  | succ fuel =>
      simp only [timelineFrom, List.head?_cons, Option.some.injEq] at hr
      subst hr
      have hdep := calculateQuarterlyDeployment_nonneg vSin hsin quarter
        (inputs.investmentPeriodYears * 4) (inputs.fundSize * 1000000)
        (mul_nonneg hf (by norm_num)) portfolio
      have hdist := calculateQuarterlyDistributions_nonneg quarter portfolio inputs hf
      constructor <;> simp [mkRecord] <;> linarith

/-- The quarterly loop's cumulative invested and distributed totals are
non-decreasing along consecutive records. -/
theorem timelineFrom_chain (vSin appr : ℕ → ℚ)
    (portfolio : List PortfolioCompany) (inputs : EnhancedFundInputs)
    (hsin : ∀ q, |vSin q| ≤ 1) (hf : 0 ≤ inputs.fundSize) :
    ∀ (fuel quarter : ℕ) (cumInv cumDist cumFees cumCarry : ℚ),
      List.Chain'
        (fun a b => a.totalInvested ≤ b.totalInvested ∧
          a.totalDistributed ≤ b.totalDistributed)
        (timelineFrom vSin appr portfolio inputs quarter fuel cumInv cumDist
          cumFees cumCarry) := by
  intro fuel
  induction fuel with
  | zero => intro q a b c d; simp [timelineFrom]
  | succ fuel ih =>
      intro quarter cumInv cumDist cumFees cumCarry
      simp only [timelineFrom]
      refine List.chain'_cons'.mpr ⟨?_, ih _ _ _ _ _⟩
      intro r hr
      have h := timelineFrom_head_ge vSin appr portfolio inputs hsin hf fuel
        (quarter + 1) _ _ _ _ r hr
      constructor
      · refine le_trans ?_ h.1
        simp [mkRecord]
      · refine le_trans ?_ h.2
        simp [mkRecord]

/-- C7: in every timeline produced by `calculateTimeline` on inputs with
positive fund size (with the sine-variance values in [-1, 1], as
`Math.sin` guarantees), cumulative invested capital and cumulative
distributed capital are non-decreasing from each quarter to the next. -/
theorem calculateTimeline_cumulative_monotone (vSin appr : ℕ → ℚ)
    (powf : ℚ → ℚ → ℚ) (portfolio : List PortfolioCompany)
    (inputs : EnhancedFundInputs) (hsin : ∀ q, |vSin q| ≤ 1)
    (hf : 0 < inputs.fundSize) :
    List.Chain'
      (fun a b => a.totalInvested ≤ b.totalInvested ∧
        a.totalDistributed ≤ b.totalDistributed)
      (calculateTimeline vSin appr powf portfolio inputs) := by
  have h := timelineFrom_chain vSin appr portfolio inputs hsin hf.le
    (inputs.fundLifeYears * 4) 0 0 0 0 0
  simp only [calculateTimeline, calculateIRRs, timelineRaw]
  rw [List.chain'_map]
  simpa using h

/-- Witness for C7 at a concrete input (constant-zero sine values, unit
appreciation, first-argument power). -/
theorem calculateTimeline_cumulative_monotone_witness :
    List.Chain'
      (fun a b => a.totalInvested ≤ b.totalInvested ∧
        a.totalDistributed ≤ b.totalDistributed)
      (calculateTimeline (fun _ => 0) (fun _ => 1) (fun a _ => a) [] c1Inputs) :=
  calculateTimeline_cumulative_monotone _ _ _ _ _
    (fun q => by norm_num) (by norm_num [c1Inputs])

/-- Before quarter 12 no distributions accrue: every record the loop
emits from zero cumulative distributions within the first 12 quarters
has `totalDistributed = 0` and `dpi = 0`. -/
theorem timelineFrom_no_dist (vSin appr : ℕ → ℚ)
    (portfolio : List PortfolioCompany) (inputs : EnhancedFundInputs) :
    ∀ (fuel quarter : ℕ) (cumInv cumFees cumCarry : ℚ),
      quarter + fuel ≤ 12 →
      ∀ r ∈ timelineFrom vSin appr portfolio inputs quarter fuel cumInv 0 cumFees
          cumCarry,
        r.totalDistributed = 0 ∧ r.dpi = 0 := by
  intro fuel
  induction fuel with
  | zero => intro q a c d h r hr; simp [timelineFrom] at hr
  | succ fuel ih =>
      intro quarter cumInv cumFees cumCarry h r hr
      have hq : quarter < 12 := by omega
      have hd : calculateQuarterlyDistributions quarter portfolio inputs = 0 := by
        unfold calculateQuarterlyDistributions
        rw [if_pos hq]
      simp only [timelineFrom, hd, add_zero] at hr
      rcases List.mem_cons.mp hr with rfl | hr'
      · refine ⟨by simp [mkRecord], ?_⟩
        simp [mkRecord, zero_div]
      · exact ih (quarter + 1) _ _ _ (by omega) r hr'

/-- C4 (amended): under the all-failure exit matrix — indeed under any
matrix, since the distribution model never reads it — the claimed
conclusions hold exactly when the fund life does not outlast the
12-quarter distribution lock-up: every timeline record then has
`totalDistributed = 0` and `dpi = 0`, and the waterfall of the resulting
zero total has `totalDistributions = 0` and `gpDistributions = 0` (for
nonnegative invested capital and hurdle rate). -/
theorem allFail_matrix_no_distributions (vSin appr : ℕ → ℚ)
    (powf : ℚ → ℚ → ℚ) (portfolio : List PortfolioCompany)
    (inputs : EnhancedFundInputs) (totalInv : ℚ)
    (hmat : ∀ st, inputs.exitProbabilityMatrix st = ⟨0, 0, 0, 1⟩)
    (hlife : inputs.fundLifeYears ≤ 3) (hinv : 0 ≤ totalInv)
    (hhurdle : 0 ≤ inputs.hurdleRate) :
    (∀ r ∈ calculateTimeline vSin appr powf portfolio inputs,
        r.totalDistributed = 0 ∧ r.dpi = 0) ∧
      (calculateWaterfall 0 totalInv inputs).totalDistributions = 0 ∧
      (calculateWaterfall 0 totalInv inputs).gpDistributions = 0 := by
  refine ⟨?_, rfl, ?_⟩
  · intro r hr
    simp only [calculateTimeline, calculateIRRs, timelineRaw, List.mem_map] at hr
    obtain ⟨t, ht, rfl⟩ := hr
    have h := timelineFrom_no_dist vSin appr portfolio inputs
      (inputs.fundLifeYears * 4) 0 0 0 0 (by omega) t ht
    exact ⟨by simpa using h.1, by simpa using h.2⟩
  · have hlpcc : 0 ≤ totalInv / (1 - inputs.gpCommitment) * (1 - inputs.gpCommitment) := by
      rcases eq_or_ne (1 - inputs.gpCommitment) 0 with h | h
      · rw [h, mul_zero]
      · rw [div_mul_cancel₀ _ h]
        exact hinv
    have hpref : 0 ≤ totalInv / (1 - inputs.gpCommitment) * (1 - inputs.gpCommitment) *
        inputs.hurdleRate * ((inputs.fundLifeYears : ℚ) * (7 / 10)) :=
      mul_nonneg (mul_nonneg hlpcc hhurdle) (by positivity)
    have h1 : min (0 : ℚ)
        (totalInv / (1 - inputs.gpCommitment) * (1 - inputs.gpCommitment)) = 0 :=
      min_eq_left hlpcc
    have h2 : min (0 : ℚ)
        (totalInv / (1 - inputs.gpCommitment) * (1 - inputs.gpCommitment) *
          inputs.hurdleRate * ((inputs.fundLifeYears : ℚ) * (7 / 10))) = 0 :=
      min_eq_left hpref
    simp [calculateWaterfall, h1, h2]

/-- Inputs for the C4 witness: a 3-year fund under the all-failure exit
matrix. -/
def c4LockupInputs : EnhancedFundInputs :=
  { fundName := "Short Fund"
    fundSize := 50
    vintage := 2020
    managementFeeRate := 1 / 50
    carryRate := 1 / 5
    gpCommitment := 1 / 50
    hurdleRate := 2 / 25
    investmentPeriodYears := 2
    fundLifeYears := 3
    stageStrategies := []
    graduationMatrix := fun _ => []
    exitProbabilityMatrix := fun _ => ⟨0, 0, 0, 1⟩ }

/-- Witness for C4's amended statement at a concrete 3-year fund. -/
theorem allFail_matrix_no_distributions_witness :
    (calculateWaterfall 0 1000 c4LockupInputs).totalDistributions = 0 ∧
      (calculateWaterfall 0 1000 c4LockupInputs).gpDistributions = 0 :=
  ⟨(allFail_matrix_no_distributions (fun _ => 0) (fun _ => 1) (fun a _ => a) []
      c4LockupInputs 1000 (fun _ => rfl) (by norm_num [c4LockupInputs])
      (by norm_num) (by norm_num [c4LockupInputs])).2.1,
    (allFail_matrix_no_distributions (fun _ => 0) (fun _ => 1) (fun a _ => a) []
      c4LockupInputs 1000 (fun _ => rfl) (by norm_num [c4LockupInputs])
      (by norm_num) (by norm_num [c4LockupInputs])).2.2⟩

/-- Inputs for the C4 counterexample: a 4-year fund (16 quarters) with a
zero fee rate and the all-failure exit matrix for every stage. -/
def c4Inputs : EnhancedFundInputs :=
  { fundName := "All-Fail Fund"
    fundSize := 1
    vintage := 2020
    managementFeeRate := 0
    carryRate := 1 / 5
    gpCommitment := 0
    hurdleRate := 2 / 25
    investmentPeriodYears := 4
    fundLifeYears := 4
    stageStrategies := []
    graduationMatrix := fun _ => []
    exitProbabilityMatrix := fun _ => ⟨0, 0, 0, 1⟩ }

/-- The one active portfolio company of the C4 counterexample. -/
def c4Company : PortfolioCompany :=
  { id := "company-1"
    name := "Seed Company 1"
    currentStage := FundStage.seed
    investments := [{ round := FundStage.seed
                      amount := 1000000
                      ownership := 1 / 10
                      valuation := 10000000 }]
    currentValuation := 11000000
    status := CompanyStatus.active
    metrics := { revenue := 0, growth := 0, runway := 18 } }

/-- A zeroed record used only as the out-of-range default of
`List.getD`. -/
def emptyTimelineRecord : TimelineMetrics :=
  { quarter := 0, quarterLabel := "", capitalDeployed := 0, capitalCalled := 0
    distributions := 0, netCashFlow := 0, cumulativeCashFlow := 0
    totalInvested := 0, totalDistributed := 0, portfolioValue := 0, nav := 0
    dpi := 0, rvpi := 0, tvpi := 0, grossMOIC := 0, netMOIC := 0, grossIRR := 0
    netIRR := 0, managementFees := 0, carriedInterest := 0 }

/-- Counterexample to C4: with the all-failure exit matrix for every
stage, the quarter-12 record of the timeline still has `dpi = 4/13 ≠ 0`
(and positive cumulative distributions): the distribution model ignores
the exit-probability matrix. -/
theorem allFail_matrix_distributions_cex :
    (∀ st, c4Inputs.exitProbabilityMatrix st = ⟨0, 0, 0, 1⟩) ∧
      ((calculateTimeline (fun _ => 0) (fun _ => 1) (fun a _ => a) [c4Company]
          c4Inputs).getD 12 emptyTimelineRecord).dpi = 4 / 13 ∧
      ((4 : ℚ) / 13) ≠ 0 := by
  refine ⟨fun st => rfl, ?_, by norm_num⟩
  norm_num [calculateTimeline, calculateIRRs, timelineRaw, timelineFrom, mkRecord,
    calculateQuarterlyDeployment, calculateQuarterlyDistributions,
    calculateQuarterlyFees, calculateNAV, irrOfTimeline, c4Inputs, c4Company,
    List.getD]

/-- C10: the ratio fields at the public interface are guarded against
division by zero: when the cumulative called capital
(`cumInv + cumFees`) is 0 the record's `dpi`, `rvpi`, `tvpi` and
`netMOIC` are 0; when cumulative invested is 0 its `grossMOIC` is 0; and
when `totalDistributions` is 0 the waterfall's `lpShare` and `gpShare`
are 0 — never an unguarded division. -/
theorem ratio_guards_zero (inputs : EnhancedFundInputs) (quarter : ℕ)
    (deployment distributions fees cumInv cumDist cumFees cumCarry nav
      total inv : ℚ) :
    (cumInv + cumFees = 0 →
        (mkRecord inputs quarter deployment distributions fees cumInv cumDist
            cumFees cumCarry nav).dpi = 0 ∧
          (mkRecord inputs quarter deployment distributions fees cumInv cumDist
              cumFees cumCarry nav).rvpi = 0 ∧
          (mkRecord inputs quarter deployment distributions fees cumInv cumDist
              cumFees cumCarry nav).tvpi = 0 ∧
          (mkRecord inputs quarter deployment distributions fees cumInv cumDist
              cumFees cumCarry nav).netMOIC = 0) ∧
      (cumInv = 0 →
        (mkRecord inputs quarter deployment distributions fees cumInv cumDist
            cumFees cumCarry nav).grossMOIC = 0) ∧
      (total = 0 →
        (calculateWaterfall total inv inputs).lpShare = 0 ∧
          (calculateWaterfall total inv inputs).gpShare = 0) := by
  refine ⟨fun h => ?_, fun h => ?_, fun h => ?_⟩
  · refine ⟨?_, ?_, ?_, ?_⟩ <;> simp [mkRecord, h]
  · simp [mkRecord, h]
  · subst h
    constructor <;> simp [calculateWaterfall]

/-- Witness for C10 at concrete zero state. -/
theorem ratio_guards_zero_witness :
    (mkRecord c1Inputs 0 0 0 0 0 0 0 0 0).dpi = 0 ∧
      (mkRecord c1Inputs 0 0 0 0 0 0 0 0 0).grossMOIC = 0 ∧
      (calculateWaterfall 0 100 c1Inputs).lpShare = 0 ∧
      (calculateWaterfall 0 100 c1Inputs).gpShare = 0 := by
  obtain ⟨h1, h2, h3⟩ := ratio_guards_zero c1Inputs 0 0 0 0 0 0 0 0 0 0 100
  exact ⟨(h1 (by norm_num)).1, h2 rfl, (h3 rfl).1, (h3 rfl).2⟩

/-- C9 (amended): cohort generation never fails; each strategy
contributes exactly `(round targetCompanies).toNat` companies, so a
stage rounding to zero is silently omitted regardless of its
allocation. -/
theorem generatePortfolio_total_length (inputs : EnhancedFundInputs) :
    (generatePortfolio inputs).length =
      (inputs.stageStrategies.map (fun s => (round s.targetCompanies).toNat)).sum := by
  unfold generatePortfolio
  generalize 1 = n
  induction inputs.stageStrategies generalizing n with
  | nil => rfl
  | cons s rest ih =>
      simp [generatePortfolioGo, companiesForStrategy, companiesInStage, ih]

end FundForecast
